import Mathlib

/-!
Verification development for the epoll-proxy repository: a shallow
embedding of the byte buffer (src/src/network/buffer.c), the HTTP/1
request framer (src/http_request.c), the connection pool and state
machine predicates (src/connection.c) and the relevant parts of the
proxy engine (src/proxy.c), together with theorems that settle the
specification claims against the embedded code.

Bytes are modelled as `Char` (the C code manipulates `char` data and
only compares ASCII values); machine sizes (`size_t`, array indices)
are modelled as `Nat`, and signed quantities (`int64_t content_length`,
`int fd`) as `Int`.  Nondeterministic kernel I/O (`read`/`write` return
counts) is passed in explicitly, bounded by the count the code requests,
exactly as the syscall contract guarantees.
-/

namespace EpollProxy

/-! ## Configuration constants, from src/include/config.h -/

/-- BUFFER_SIZE in src/include/config.h (16 KiB). -/
def BUFFER_SIZE : Nat := 16384

/-- MAX_CONNECTIONS in src/include/config.h. -/
def MAX_CONNECTIONS : Nat := 10000

/-- MAX_REQUEST_SIZE in src/include/config.h (10 MiB). -/
def MAX_REQUEST_SIZE : Nat := 10 * 1024 * 1024

/-- MAX_REQUESTS_PER_CONN in src/include/config.h. -/
def MAX_REQUESTS_PER_CONN : Nat := 1000

/-! ## Byte buffer, from src/src/network/buffer.c

A `buffer_t` is a fixed `char data[BUFFER_SIZE]` array plus the two
cursors `len` (bytes in buffer) and `pos` (bytes already consumed). -/

structure Buffer where
  data : List Char
  len : Nat
  pos : Nat
  deriving DecidableEq, Repr

/-- buffer_init: memset the whole struct to zero. -/
def bufferInitB : Buffer :=
  { data := List.replicate BUFFER_SIZE (Char.ofNat 0), len := 0, pos := 0 }

/-- buffer_clear: reset the cursors, keep the data array. -/
def bufferClear (b : Buffer) : Buffer :=
  { b with len := 0, pos := 0 }

/-- buffer_is_full: `len >= BUFFER_SIZE`. -/
def bufferIsFull (b : Buffer) : Bool := BUFFER_SIZE ≤ b.len

/-- buffer_is_empty: `pos >= len`. -/
def bufferIsEmpty (b : Buffer) : Bool := b.len ≤ b.pos

/-- buffer_readable_bytes: `len - pos`. -/
def bufferReadable (b : Buffer) : Nat := b.len - b.pos

/-- buffer_writable_bytes: `BUFFER_SIZE - len`. -/
def bufferWritable (b : Buffer) : Nat := BUFFER_SIZE - b.len

/-- Effect of a successful `buffer_read_fd` on the buffer when the kernel
delivers `chunk` (the bytes returned by `read(fd, data+len, BUFFER_SIZE-len)`;
the syscall contract bounds `chunk.length` by the requested
`BUFFER_SIZE - len`).  If the buffer is already full the function fails
with ENOBUFS and leaves the buffer untouched. -/
def bufferReadApply (b : Buffer) (chunk : List Char) : Buffer :=
  if BUFFER_SIZE ≤ b.len then b
  else
    { data := b.data.take b.len ++ chunk ++ b.data.drop (b.len + chunk.length),
      len := b.len + chunk.length,
      pos := b.pos }

/-- Effect of a successful `buffer_write_fd` on the buffer when the kernel
accepts `n` bytes (bounded by the requested `len - pos`).  If the buffer
is empty the function returns 0 without touching it; when the write
drains the buffer both cursors reset to 0. -/
def bufferWriteApply (b : Buffer) (n : Nat) : Buffer :=
  if b.len ≤ b.pos then b
  else if b.len ≤ b.pos + n then { b with len := 0, pos := 0 }
  else { b with pos := b.pos + n }

/-- buffer_compact: move `[pos..len)` to offset 0.  A no-op when `pos == 0`;
a cursor reset when the buffer is empty; otherwise a `memmove` of the
readable window to the front (bytes past the moved window keep their old
values, as `memmove` only writes `len - pos` bytes). -/
def bufferCompact (b : Buffer) : Buffer :=
  if b.pos = 0 then b
  else if b.len ≤ b.pos then { b with len := 0, pos := 0 }
  else
    { data := (b.data.drop b.pos).take (b.len - b.pos) ++ b.data.drop (b.len - b.pos),
      len := b.len - b.pos,
      pos := 0 }

/-- forward_data (src/proxy.c): copy `min(readable src, writable dst)` bytes
from the source read buffer window into the destination write buffer tail,
advance the source `pos` (clearing the source when drained), and compact
the destination when `pos > 0` and fewer than 1024 bytes remain writable.
Returns the updated (source read buffer, destination write buffer). -/
def forwardData (src dst : Buffer) : Buffer × Buffer :=
  let available := bufferReadable src
  if available = 0 then (src, dst)
  else
    let space := bufferWritable dst
    if space = 0 then (src, dst)
    else
      let toCopy := min available space
      let window := (src.data.drop src.pos).take toCopy
      let dst' : Buffer :=
        { data := dst.data.take dst.len ++ window ++ dst.data.drop (dst.len + toCopy),
          len := dst.len + toCopy,
          pos := dst.pos }
      let src' : Buffer := { src with pos := src.pos + toCopy }
      let src'' := if src'.len ≤ src'.pos then bufferClear src' else src'
      let dst'' := if 0 < dst'.pos ∧ bufferWritable dst' < 1024 then bufferCompact dst' else dst'
      (src'', dst'')

/-- Readable window of a buffer: the bytes at `[pos..len)`. -/
def readWindow (b : Buffer) : List Char := (b.data.drop b.pos).take (b.len - b.pos)

/-- Buffer well-formedness: cursors in range and the data array at its
fixed capacity. -/
def BufInv (b : Buffer) : Prop :=
  b.pos ≤ b.len ∧ b.len ≤ BUFFER_SIZE ∧ b.data.length = BUFFER_SIZE

instance (b : Buffer) : Decidable (BufInv b) := by
  unfold BufInv; infer_instance

lemma bufInv_clear {b : Buffer} (h : BufInv b) : BufInv (bufferClear b) := by
  obtain ⟨_, _, h3⟩ := h
  exact ⟨Nat.le_refl 0, Nat.zero_le _, h3⟩

lemma bufInv_readApply {b : Buffer} {chunk : List Char} (h : BufInv b)
    (hc : chunk.length ≤ bufferWritable b) : BufInv (bufferReadApply b chunk) := by
  obtain ⟨h1, h2, h3⟩ := h
  unfold bufferReadApply
  split
  · exact ⟨h1, h2, h3⟩
  · rename_i hlt
    push_neg at hlt
    unfold bufferWritable at hc
    refine ⟨?_, ?_, ?_⟩
    · dsimp only
      omega
    · dsimp only
      omega
    · dsimp only
      simp only [List.length_append, List.length_take, List.length_drop, h3]
      omega

lemma bufInv_writeApply {b : Buffer} {n : Nat} (h : BufInv b)
    (_hn : n ≤ bufferReadable b) : BufInv (bufferWriteApply b n) := by
  obtain ⟨h1, h2, h3⟩ := h
  unfold bufferWriteApply bufferReadable at *
  split
  · exact ⟨h1, h2, h3⟩
  · split
    · exact ⟨Nat.le_refl 0, Nat.zero_le _, h3⟩
    · refine ⟨?_, ?_, ?_⟩ <;> dsimp only
      · omega
      · exact h2
      · exact h3

lemma bufInv_compact {b : Buffer} (h : BufInv b) : BufInv (bufferCompact b) := by
  obtain ⟨h1, h2, h3⟩ := h
  unfold bufferCompact
  split
  · exact ⟨h1, h2, h3⟩
  · split
    · exact ⟨Nat.le_refl 0, Nat.zero_le _, h3⟩
    · refine ⟨?_, ?_, ?_⟩ <;> dsimp only
      · exact Nat.zero_le _
      · omega
      · simp only [List.length_append, List.length_take, List.length_drop, h3]
        omega

lemma bufInv_forward {b c : Buffer} (hb : BufInv b) (hc : BufInv c) :
    BufInv (forwardData b c).1 ∧ BufInv (forwardData b c).2 := by
  obtain ⟨hb1, hb2, hb3⟩ := hb
  obtain ⟨hc1, hc2, hc3⟩ := hc
  unfold forwardData bufferReadable bufferWritable
  dsimp only
  split
  · exact ⟨⟨hb1, hb2, hb3⟩, ⟨hc1, hc2, hc3⟩⟩
  · split
    · exact ⟨⟨hb1, hb2, hb3⟩, ⟨hc1, hc2, hc3⟩⟩
    · rename_i hav hsp
      have hlen : (c.data.take c.len ++ (b.data.drop b.pos).take (min (b.len - b.pos) (BUFFER_SIZE - c.len)) ++
          c.data.drop (c.len + min (b.len - b.pos) (BUFFER_SIZE - c.len))).length = BUFFER_SIZE := by
        simp only [List.length_append, List.length_take, List.length_drop, hb3, hc3]
        omega
      constructor
      · dsimp only
        split
        · exact ⟨Nat.le_refl 0, Nat.zero_le _, hb3⟩
        · refine ⟨?_, ?_, ?_⟩ <;> dsimp only
          · rename_i hdr
            omega
          · exact hb2
          · exact hb3
      · dsimp only
        split
        · exact bufInv_compact ⟨by dsimp only; omega, by dsimp only; omega, hlen⟩
        · exact ⟨by dsimp only; omega, by dsimp only; omega, hlen⟩

/-! ## Statements for claims C5 and C8 -/

/-- C5.  Buffer cursor invariant: the initialized buffer satisfies
`0 ≤ pos ≤ len ≤ BUFFER_SIZE`, every buffer operation (clear,
read-from-fd with a kernel-bounded chunk, write-to-fd with a
kernel-bounded count, compact, forward) preserves it, and under the
invariant the buffer is empty iff `pos = len` and full iff
`len = BUFFER_SIZE`. -/
theorem c5_buffer_invariant (b c : Buffer) (chunk : List Char) (n : Nat)
    (hb : BufInv b) (hc : BufInv c) :
    BufInv bufferInitB
    ∧ BufInv (bufferClear b)
    ∧ (chunk.length ≤ bufferWritable b → BufInv (bufferReadApply b chunk))
    ∧ (n ≤ bufferReadable b → BufInv (bufferWriteApply b n))
    ∧ BufInv (bufferCompact b)
    ∧ BufInv (forwardData b c).1
    ∧ BufInv (forwardData b c).2
    ∧ (bufferIsEmpty b = true ↔ b.pos = b.len)
    ∧ (bufferIsFull b = true ↔ b.len = BUFFER_SIZE) := by
  obtain ⟨h1, h2, h3⟩ := hb
  refine ⟨⟨Nat.le_refl 0, Nat.zero_le _, by simp [bufferInitB]⟩,
    bufInv_clear ⟨h1, h2, h3⟩,
    fun hch => bufInv_readApply ⟨h1, h2, h3⟩ hch,
    fun hn => bufInv_writeApply ⟨h1, h2, h3⟩ hn,
    bufInv_compact ⟨h1, h2, h3⟩,
    (bufInv_forward ⟨h1, h2, h3⟩ hc).1,
    (bufInv_forward ⟨h1, h2, h3⟩ hc).2, ?_, ?_⟩
  · unfold bufferIsEmpty
    constructor
    · intro he
      have := of_decide_eq_true he
      omega
    · intro he
      exact decide_eq_true (by omega)
  · unfold bufferIsFull
    constructor
    · intro hf
      have := of_decide_eq_true hf
      omega
    · intro hf
      exact decide_eq_true (by omega)

/-- Witness for c5_buffer_invariant at a concrete buffer pair. -/
theorem c5_buffer_invariant_witness :
    BufInv bufferInitB ∧ BufInv (bufferClear bufferInitB) := by
  have h := c5_buffer_invariant bufferInitB bufferInitB [] 0
    ⟨Nat.le_refl 0, Nat.zero_le _, by simp [bufferInitB]⟩
    ⟨Nat.le_refl 0, Nat.zero_le _, by simp [bufferInitB]⟩
  exact ⟨h.1, h.2.1⟩

/-- C8.  Compaction idempotence and content preservation: for a buffer
with `pos ≤ len ≤ BUFFER_SIZE`, `compact (compact b) = compact b`; the
readable window is preserved byte-for-byte, and afterwards `pos = 0` and
`len` equals the old readable count. -/
theorem c8_compact_idempotent (b : Buffer) (h : BufInv b) :
    bufferCompact (bufferCompact b) = bufferCompact b
    ∧ readWindow (bufferCompact b) = readWindow b
    ∧ (bufferCompact b).pos = 0
    ∧ (bufferCompact b).len = b.len - b.pos := by
  obtain ⟨h1, h2, h3⟩ := h
  by_cases hp : b.pos = 0
  · have hcb : bufferCompact b = b := by
      unfold bufferCompact
      rw [if_pos hp]
    refine ⟨by rw [hcb, hcb], by rw [hcb], by rw [hcb]; exact hp, by rw [hcb]; omega⟩
  · by_cases he : b.len ≤ b.pos
    · have hpl : b.pos = b.len := Nat.le_antisymm h1 he
      have hcb : bufferCompact b = { b with len := 0, pos := 0 } := by
        unfold bufferCompact
        rw [if_neg hp, if_pos he]
      have hcb2 : bufferCompact { b with len := 0, pos := 0 } =
          { b with len := 0, pos := 0 } := by
        unfold bufferCompact
        simp
      rw [hcb, hcb2]
      refine ⟨rfl, ?_, rfl, by dsimp only; omega⟩
      unfold readWindow
      dsimp only
      rw [hpl]
      simp
    · push_neg at he
      have hcObj : bufferCompact b =
          { data := (b.data.drop b.pos).take (b.len - b.pos) ++ b.data.drop (b.len - b.pos),
            len := b.len - b.pos, pos := 0 } := by
        unfold bufferCompact
        simp [hp, Nat.not_le_of_lt he]
      refine ⟨?_, ?_, by rw [hcObj], by rw [hcObj]⟩
      · rw [hcObj]
        unfold bufferCompact
        simp
      · rw [hcObj]
        unfold readWindow
        simp only [List.drop_zero, Nat.sub_zero]
        rw [List.take_append_eq_append_take]
        have hl1 : ((b.data.drop b.pos).take (b.len - b.pos)).length = b.len - b.pos := by
          simp only [List.length_take, List.length_drop, h3]
          omega
        rw [hl1, List.take_take, Nat.min_self, Nat.sub_self, List.take_zero, List.append_nil]

/-- Witness for c8_compact_idempotent at a concrete buffer. -/
theorem c8_compact_idempotent_witness :
    bufferCompact (bufferCompact bufferInitB) = bufferCompact bufferInitB
    ∧ readWindow (bufferCompact bufferInitB) = readWindow bufferInitB := by
  have h := c8_compact_idempotent bufferInitB
    ⟨Nat.le_refl 0, Nat.zero_le _, by simp [bufferInitB]⟩
  exact ⟨h.1, h.2.1⟩

/-! ## HTTP/1 request framer, from src/http_request.c -/

/-- Limits from src/http_request.h. -/
def MAX_METHOD_LEN : Nat := 16

/-- MAX_PATH_LEN in src/http_request.h. -/
def MAX_PATH_LEN : Nat := 8192

/-- MAX_HOST_LEN in src/http_request.h. -/
def MAX_HOST_LEN : Nat := 256

/-- MAX_HEADERS in src/http_request.h. -/
def MAX_HEADERS : Nat := 64

/-- MAX_HEADER_NAME_LEN in src/http_request.h. -/
def MAX_HEADER_NAME_LEN : Nat := 128

/-- MAX_HEADER_VALUE_LEN in src/http_request.h. -/
def MAX_HEADER_VALUE_LEN : Nat := 8192

/-- http_method_t from src/http_request.h. -/
inductive HttpMethod where
  | UNKNOWN | GET | POST | HEAD | PUT | DELETE | PATCH | OPTIONS | TRACE | CONNECT
  deriving DecidableEq, Repr

/-- http_version_t from src/http_request.h. -/
inductive HttpVersion where
  | VUNKNOWN | V10 | V11
  deriving DecidableEq, Repr

/-- ASCII tolower, as used by the parser's case-insensitive comparisons
(C `tolower` on the ASCII bytes the parser compares). -/
def asciiLower (c : Char) : Char :=
  if 'A' ≤ c ∧ c ≤ 'Z' then Char.ofNat (c.toNat + 32) else c

/-- Truth of `http_strcasecmp(s1, s2) == 0`: the two NUL-free byte strings
are equal up to ASCII case. -/
def caseEq (a b : List Char) : Bool := a.map asciiLower = b.map asciiLower

/-- Truth of `strncasecmp_custom(s1, s2, n) == 0`: the first `n` bytes are
equal up to ASCII case, where a string shorter than `n` participates with
all of its bytes (the C loop stops at the terminating NUL of either side
and the comparison succeeds only if both sides ended). -/
def ncaseEq (a b : List Char) (n : Nat) : Bool :=
  (a.take n).map asciiLower = (b.take n).map asciiLower

/-- http_parse_method from src/http_request.c: each arm checks the token
length and a case-insensitive comparison against the literal method name,
which together amount to case-insensitive equality with that name. -/
def httpParseMethod (s : List Char) : HttpMethod :=
  if caseEq s ("GET".toList) then .GET
  else if caseEq s ("POST".toList) then .POST
  else if caseEq s ("HEAD".toList) then .HEAD
  else if caseEq s ("PUT".toList) then .PUT
  else if caseEq s ("DELETE".toList) then .DELETE
  else if caseEq s ("PATCH".toList) then .PATCH
  else if caseEq s ("OPTIONS".toList) then .OPTIONS
  else if caseEq s ("TRACE".toList) then .TRACE
  else if caseEq s ("CONNECT".toList) then .CONNECT
  else .UNKNOWN

/-- Helper for find_crlf / find_header_end: does the list start with CRLF? -/
def startsCRLF : List Char → Bool
  | a :: b :: _ => a = '\r' && b = '\n'
  | _ => false

/-- Helper for find_header_end: does the list start with CRLFCRLF? -/
def startsCRLF2 : List Char → Bool
  | a :: b :: c :: d :: _ => a = '\r' && b = '\n' && c = '\r' && d = '\n'
  | _ => false

/-- find_crlf from src/http_request.c: index of the first CRLF, if any. -/
def findCRLF : List Char → Option Nat
  | [] => none
  | c :: rest =>
    if startsCRLF (c :: rest) then some 0
    else (findCRLF rest).map (· + 1)

/-- find_header_end from src/http_request.c: index of the first CRLFCRLF,
if any. -/
def findHeaderEnd : List Char → Option Nat
  | [] => none
  | c :: rest =>
    if startsCRLF2 (c :: rest) then some 0
    else (findHeaderEnd rest).map (· + 1)

lemma startsCRLF_length {l : List Char} (h : startsCRLF l = true) : 2 ≤ l.length := by
  match l with
  | [] => simp [startsCRLF] at h
  | [a] => simp [startsCRLF] at h
  | a :: b :: rest => simp

lemma startsCRLF2_length {l : List Char} (h : startsCRLF2 l = true) : 4 ≤ l.length := by
  match l with
  | [] => simp [startsCRLF2] at h
  | [a] => simp [startsCRLF2] at h
  | [a, b] => simp [startsCRLF2] at h
  | [a, b, c] => simp [startsCRLF2] at h
  | a :: b :: c :: d :: rest => simp [List.length_cons]

lemma findCRLF_le_length {l : List Char} {k : Nat} (h : findCRLF l = some k) :
    k + 2 ≤ l.length := by
  induction l generalizing k with
  | nil => simp [findCRLF] at h
  | cons c rest ih =>
    unfold findCRLF at h
    by_cases hs : startsCRLF (c :: rest) = true
    · rw [if_pos hs] at h
      have hk : k = 0 := by
        have := Option.some.inj h
        omega
      subst hk
      exact startsCRLF_length hs
    · rw [if_neg hs] at h
      obtain ⟨j, hj, hk⟩ := Option.map_eq_some'.mp h
      have := ih hj
      simp only [List.length_cons]
      omega

lemma findHeaderEnd_le_length {l : List Char} {k : Nat} (h : findHeaderEnd l = some k) :
    k + 4 ≤ l.length := by
  induction l generalizing k with
  | nil => simp [findHeaderEnd] at h
  | cons c rest ih =>
    unfold findHeaderEnd at h
    by_cases hs : startsCRLF2 (c :: rest) = true
    · rw [if_pos hs] at h
      have hk : k = 0 := by
        have := Option.some.inj h
        omega
      subst hk
      exact startsCRLF2_length hs
    · rw [if_neg hs] at h
      obtain ⟨j, hj, hk⟩ := Option.map_eq_some'.mp h
      have := ih hj
      simp only [List.length_cons]
      omega

/-- skip_whitespace from src/http_request.c: drop leading spaces/tabs. -/
def skipWhitespace (l : List Char) : List Char :=
  l.dropWhile (fun c => c = ' ' || c = '\t')

/-- Whitespace class of C `isspace`, used by `atoll`. -/
def isCSpace (c : Char) : Bool :=
  c = ' ' || c = '\t' || c = '\n' || c = '\r' || c = Char.ofNat 11 || c = Char.ofNat 12

/-- Numeric value of a maximal leading digit run. -/
def digitRunVal (l : List Char) : Nat :=
  (l.takeWhile Char.isDigit).foldl (fun acc c => acc * 10 + (c.toNat - 48)) 0

/-- C `atoll` on a NUL-free byte string: skip whitespace, optional sign,
then a maximal digit run (0 if none).  Overflow of the C `long long` is
not modelled (the parser's inputs of interest are far below it). -/
def atoll (s : List Char) : Int :=
  match s.dropWhile isCSpace with
  | [] => 0
  | c :: rest =>
    if c = '-' then - (digitRunVal rest : Int)
    else if c = '+' then (digitRunVal rest : Int)
    else (digitRunVal (c :: rest) : Int)

/-- http_request_t from src/http_request.h (the parser-visible fields;
the raw-data pointer pair is bookkeeping the parser never reads). -/
structure HttpRequest where
  method : HttpMethod
  method_str : List Char
  path : List Char
  version : HttpVersion
  host : List Char
  headers : List (List Char × List Char)
  content_length : Int
  chunked : Bool
  keep_alive : Bool
  is_complete : Bool
  headers_end_offset : Nat
  total_length : Nat
  deriving DecidableEq, Repr

/-- http_request_init from src/http_request.c: zero the struct, then set
`content_length = -1`, `version = HTTP/1.1`, `keep_alive = 1`. -/
def httpRequestInit : HttpRequest :=
  { method := .UNKNOWN, method_str := [], path := [], version := .V11,
    host := [], headers := [], content_length := -1, chunked := false,
    keep_alive := true, is_complete := false, headers_end_offset := 0,
    total_length := 0 }

/-- parse_request_line from src/http_request.c, as a pure function of the
request line (the bytes before the first CRLF).  Returns the method enum,
the method text, the path and the version on success, `none` when the C
function returns -1. -/
def parseRequestLine (line : List Char) : Option (HttpMethod × List Char × List Char × HttpVersion) :=
  let methodTok := line.takeWhile (fun c => c ≠ ' ')
  if methodTok.length = line.length then none
  else if MAX_METHOD_LEN ≤ methodTok.length then none
  else
    let afterMethod := skipWhitespace (line.drop methodTok.length)
    if afterMethod = [] then none
    else
      let pathTok := afterMethod.takeWhile (fun c => c ≠ ' ')
      if pathTok.length = afterMethod.length then none
      else if MAX_PATH_LEN ≤ pathTok.length then none
      else
        let afterPath := skipWhitespace (afterMethod.drop pathTok.length)
        if afterPath = [] then none
        else if ncaseEq afterPath ("HTTP/1.1".toList) 8 ∧ 8 ≤ afterPath.length then
          some (httpParseMethod methodTok, methodTok, pathTok, .V11)
        else if ncaseEq afterPath ("HTTP/1.0".toList) 8 ∧ 8 ≤ afterPath.length then
          some (httpParseMethod methodTok, methodTok, pathTok, .V10)
        else none

/-- Drop trailing characters satisfying `p` (used for the header name and
value trimming loops). -/
def dropTrailing (p : Char → Bool) (l : List Char) : List Char :=
  (l.reverse.dropWhile p).reverse

/-- The untrimmed header name of a header line: the bytes before the first
colon (the span `memchr` locates in parse_header). -/
def headerNameRaw (line : List Char) : List Char :=
  line.takeWhile (fun c => c ≠ ':')

/-- The stored header name: the raw name with trailing spaces/tabs trimmed
(parse_header copies `name_len` bytes from the line start after trimming). -/
def headerName (line : List Char) : List Char :=
  dropTrailing (fun c => c = ' ' || c = '\t') (headerNameRaw line)

/-- The stored header value: the bytes after the colon with leading
spaces/tabs skipped and trailing whitespace (including CR/LF) trimmed. -/
def headerValue (line : List Char) : List Char :=
  dropTrailing (fun c => c = ' ' || c = '\t' || c = '\r' || c = '\n')
    (skipWhitespace (line.drop ((headerNameRaw line).length + 1)))

/-- parse_header from src/http_request.c: split a header line at the first
colon, trim, bounds-check, append to the header table and cache the
recognized headers (Host, Content-Length, Connection, Transfer-Encoding),
using the same prefix-limited case-insensitive comparisons as the C code.
Returns `none` when the C function returns -1. -/
def parseHeader (req : HttpRequest) (line : List Char) : Option HttpRequest :=
  if MAX_HEADERS ≤ req.headers.length then none
  else if (headerNameRaw line).length = line.length then none
  else if MAX_HEADER_NAME_LEN ≤ (headerNameRaw line).length then none
  else
    let name := headerName line
    let value := headerValue line
    if MAX_HEADER_VALUE_LEN ≤ value.length then none
    else
      let req := { req with headers := req.headers ++ [(name, value)] }
      if ncaseEq name ("Host".toList) 4 then
        some { req with host := value.take (MAX_HOST_LEN - 1) }
      else if ncaseEq name ("Content-Length".toList) 14 then
        some { req with content_length := atoll value }
      else if ncaseEq name ("Connection".toList) 10 then
        if ncaseEq value ("keep-alive".toList) 10 then
          some { req with keep_alive := true }
        else if ncaseEq value ("close".toList) 5 then
          some { req with keep_alive := false }
        else some req
      else if ncaseEq name ("Transfer-Encoding".toList) 17 then
        if ncaseEq value ("chunked".toList) 7 then
          some { req with chunked := true }
        else some req
      else some req

/-- The header-parsing loop of http_request_parse, structurally recursive
on an explicit fuel.  Each iteration consumes at least three bytes of the
region, so any fuel of at least `region.length + 1` behaves as the
unbounded C loop and the fuel-exhaustion arm is unreachable. -/
def headerLoopF (fuel : Nat) (req : HttpRequest) (region : List Char) : Option HttpRequest :=
  match fuel with
  | 0 => none
  | fuel + 1 =>
    match findCRLF region with
    | none => some req
    | some k =>
      if k = 0 then some req
      else
        match parseHeader req (region.take k) with
        | none => none
        | some req' => headerLoopF fuel req' (region.drop (k + 2))

/-- The header-parsing loop of http_request_parse, over the byte region
between the request line's CRLF and the CRLFCRLF terminator.  The loop
stops at the first region with no CRLF or at an empty line, and fails when
parse_header fails. -/
def headerLoop (req : HttpRequest) (region : List Char) : Option HttpRequest :=
  headerLoopF (region.length + 1) req region

/-- http_request_get_header from src/http_request.c: first header whose
name equals `name` up to case. -/
def getHeader (req : HttpRequest) (name : List Char) : Option (List Char) :=
  (req.headers.find? (fun h => caseEq h.1 name)).map Prod.snd

/-- The keep-alive defaulting pass of http_request_parse (lines 304-313):
HTTP/1.0 keeps alive only on an explicit `Connection: keep-alive`;
anything else keeps alive unless an explicit `Connection: close`. -/
def applyKeepAliveDefault (req : HttpRequest) : HttpRequest :=
  match req.version with
  | .V10 =>
    { req with keep_alive :=
        match getHeader req ("Connection".toList) with
        | some v => caseEq v ("keep-alive".toList)
        | none => false }
  | _ =>
    { req with keep_alive :=
        match getHeader req ("Connection".toList) with
        | some v => !(caseEq v ("close".toList))
        | none => true }

/-- The framing determination of http_request_parse (lines 315-341), as a
function of the parsed request and the total number of buffered bytes.
Returns the C return value (1 complete, 0 need, -1 malformed) and the
updated request. -/
def determineFraming (req : HttpRequest) (len : Nat) : Int × HttpRequest :=
  if req.chunked then
    (1, { req with total_length := req.headers_end_offset, is_complete := true })
  else if 0 ≤ req.content_length then
    let total := req.headers_end_offset + req.content_length.toNat
    if total ≤ len then
      (1, { req with total_length := total, is_complete := true })
    else
      (0, { req with total_length := total })
  else if req.method = .GET ∨ req.method = .HEAD ∨ req.method = .DELETE then
    (1, { req with total_length := req.headers_end_offset, is_complete := true })
  else
    (-1, req)

/-- The request state after http_request_parse has recorded the
headers-end offset `i + 4` and the parsed request line. -/
def requestLineApplied (req : HttpRequest) (i : Nat) (m : HttpMethod)
    (mstr pth : List Char) (ver : HttpVersion) : HttpRequest :=
  { req with
    headers_end_offset := i + 4, method := m, method_str := mstr,
    path := pth, version := ver }

/-- The body of http_request_parse after the CRLFCRLF terminator has been
found at offset `i` in `data`. -/
def afterHeaderEnd (data : List Char) (i : Nat) (req0 : HttpRequest) : Int × HttpRequest :=
  match findCRLF data with
  | none => (-1, { req0 with headers_end_offset := i + 4 })
  | some c =>
    match parseRequestLine (data.take c) with
    | none => (-1, { req0 with headers_end_offset := i + 4 })
    | some (m, mstr, pth, ver) =>
      match headerLoop (requestLineApplied req0 i m mstr pth ver) ((data.take i).drop (c + 2)) with
      | none => (-1, requestLineApplied req0 i m mstr pth ver)
      | some req' => determineFraming (applyKeepAliveDefault req') data.length

/-- http_request_parse from src/http_request.c: return 1 immediately when
already complete; return 0 while no CRLFCRLF is in the prefix; otherwise
parse request line and headers, apply the keep-alive default and determine
framing.  The result pairs the C return value with the updated request. -/
def httpRequestParse (req : HttpRequest) (data : List Char) : Int × HttpRequest :=
  if req.is_complete then (1, req)
  else
    match findHeaderEnd data with
    | none => (0, req)
    | some i => afterHeaderEnd data i req

/-- http_request_is_valid from src/http_request.c. -/
def httpRequestIsValid (req : HttpRequest) : Bool :=
  !(req.method = HttpMethod.UNKNOWN) && !(req.path = []) &&
    !(req.version = HttpVersion.VUNKNOWN) &&
    req.content_length ≤ 100 * 1024 * 1024

/-! ## Prefix-stability of the scanning primitives -/

lemma startsCRLF_append {l s : List Char} (h : 2 ≤ l.length) :
    startsCRLF (l ++ s) = startsCRLF l := by
  match l with
  | [] => simp at h
  | [a] => simp at h
  | a :: b :: t => simp [startsCRLF]

lemma startsCRLF2_append {l s : List Char} (h : 4 ≤ l.length) :
    startsCRLF2 (l ++ s) = startsCRLF2 l := by
  match l with
  | [] => simp at h
  | [a] => simp at h
  | [a, b] => simp at h
  | [a, b, c] => simp at h
  | a :: b :: c :: d :: t => simp [startsCRLF2]

lemma startsCRLF_true_append {l s : List Char} (h : startsCRLF l = true) :
    startsCRLF (l ++ s) = true := by
  rw [startsCRLF_append (startsCRLF_length h)]
  exact h

lemma startsCRLF2_true_append {l s : List Char} (h : startsCRLF2 l = true) :
    startsCRLF2 (l ++ s) = true := by
  rw [startsCRLF2_append (startsCRLF2_length h)]
  exact h

lemma findCRLF_append {l s : List Char} {k : Nat} (h : findCRLF l = some k) :
    findCRLF (l ++ s) = some k := by
  induction l generalizing k with
  | nil => simp [findCRLF] at h
  | cons c rest ih =>
    unfold findCRLF at h
    by_cases hs : startsCRLF (c :: rest) = true
    · rw [if_pos hs] at h
      rw [List.cons_append]
      unfold findCRLF
      rw [if_pos (by rw [← List.cons_append]; exact startsCRLF_true_append hs)]
      exact h
    · rw [if_neg hs] at h
      obtain ⟨j, hj, hk⟩ := Option.map_eq_some'.mp h
      have hrest : 2 ≤ rest.length := by
        have := findCRLF_le_length hj
        omega
      rw [List.cons_append]
      unfold findCRLF
      have hs2 : ¬ startsCRLF (c :: (rest ++ s)) = true := by
        rw [← List.cons_append]
        have hlen : 2 ≤ (c :: rest).length := by simp; omega
        rw [startsCRLF_append hlen]
        exact hs
      rw [if_neg hs2, ih hj]
      simp [hk]

lemma findHeaderEnd_append {l s : List Char} {k : Nat} (h : findHeaderEnd l = some k) :
    findHeaderEnd (l ++ s) = some k := by
  induction l generalizing k with
  | nil => simp [findHeaderEnd] at h
  | cons c rest ih =>
    unfold findHeaderEnd at h
    by_cases hs : startsCRLF2 (c :: rest) = true
    · rw [if_pos hs] at h
      rw [List.cons_append]
      unfold findHeaderEnd
      rw [if_pos (by rw [← List.cons_append]; exact startsCRLF2_true_append hs)]
      exact h
    · rw [if_neg hs] at h
      obtain ⟨j, hj, hk⟩ := Option.map_eq_some'.mp h
      have hrest : 4 ≤ rest.length := by
        have := findHeaderEnd_le_length hj
        omega
      rw [List.cons_append]
      unfold findHeaderEnd
      have hs2 : ¬ startsCRLF2 (c :: (rest ++ s)) = true := by
        rw [← List.cons_append]
        have hlen : 4 ≤ (c :: rest).length := by simp; omega
        rw [startsCRLF2_append hlen]
        exact hs
      rw [if_neg hs2, ih hj]
      simp [hk]

lemma determineFraming_mono {r : HttpRequest} {len len' : Nat}
    (h : (determineFraming r len).1 = 1) (hle : len ≤ len') :
    determineFraming r len' = determineFraming r len := by
  unfold determineFraming at h ⊢
  by_cases hch : r.chunked = true
  · simp only [if_pos hch]
  · simp only [if_neg hch] at h ⊢
    by_cases hcl : (0 : Int) ≤ r.content_length
    · simp only [if_pos hcl] at h ⊢
      by_cases htot : r.headers_end_offset + r.content_length.toNat ≤ len
      · simp only [if_pos htot, if_pos (Nat.le_trans htot hle)]
      · simp only [if_neg htot] at h
        simp at h
    · simp only [if_neg hcl]

lemma determineFraming_one_complete {r : HttpRequest} {len : Nat}
    (h : (determineFraming r len).1 = 1) :
    (determineFraming r len).2.is_complete = true := by
  unfold determineFraming at h ⊢
  by_cases hch : r.chunked = true
  · simp only [if_pos hch]
  · simp only [if_neg hch] at h ⊢
    by_cases hcl : (0 : Int) ≤ r.content_length
    · simp only [if_pos hcl] at h ⊢
      by_cases htot : r.headers_end_offset + r.content_length.toNat ≤ len
      · simp only [if_pos htot]
      · simp only [if_neg htot] at h
        simp at h
    · simp only [if_neg hcl] at h ⊢
      by_cases hm : r.method = HttpMethod.GET ∨ r.method = HttpMethod.HEAD ∨ r.method = HttpMethod.DELETE
      · simp only [if_pos hm]
      · simp only [if_neg hm] at h
        simp at h

lemma afterHeaderEnd_append {p s : List Char} {i : Nat} {q : HttpRequest}
    (hhe : findHeaderEnd p = some i)
    (h : (afterHeaderEnd p i q).1 = 1) :
    afterHeaderEnd (p ++ s) i q = afterHeaderEnd p i q := by
  unfold afterHeaderEnd at h ⊢
  cases hcr : findCRLF p with
  | none =>
    rw [hcr] at h
    simp at h
  | some c =>
    have hc2 := findCRLF_le_length hcr
    have hi4 := findHeaderEnd_le_length hhe
    rw [hcr] at h
    rw [findCRLF_append hcr]
    dsimp only at h ⊢
    rw [List.take_append_of_le_length (by omega : c ≤ p.length)]
    rw [List.take_append_of_le_length (by omega : i ≤ p.length)]
    cases hrl : parseRequestLine (p.take c) with
    | none =>
      rfl
    | some quad =>
      obtain ⟨m, ms, pt, v⟩ := quad
      rw [hrl] at h
      dsimp only at h ⊢
      cases hhl : headerLoop (requestLineApplied q i m ms pt v) ((p.take i).drop (c + 2)) with
      | none =>
        rfl
      | some r1 =>
        rw [hhl] at h
        dsimp only at h ⊢
        exact determineFraming_mono h (by simp)

lemma afterHeaderEnd_one_complete {p : List Char} {i : Nat} {q : HttpRequest}
    (h : (afterHeaderEnd p i q).1 = 1) :
    (afterHeaderEnd p i q).2.is_complete = true := by
  unfold afterHeaderEnd at h ⊢
  cases hcr : findCRLF p with
  | none =>
    rw [hcr] at h
    simp at h
  | some c =>
    rw [hcr] at h
    dsimp only at h ⊢
    cases hrl : parseRequestLine (p.take c) with
    | none =>
      rw [hrl] at h
      simp at h
    | some quad =>
      obtain ⟨m, ms, pt, v⟩ := quad
      rw [hrl] at h
      dsimp only at h ⊢
      cases hhl : headerLoop (requestLineApplied q i m ms pt v) ((p.take i).drop (c + 2)) with
      | none =>
        rw [hhl] at h
        simp at h
      | some r1 =>
        rw [hhl] at h
        dsimp only at h ⊢
        exact determineFraming_one_complete h

lemma parse_of_complete (r : HttpRequest) (hr : r.is_complete = true) (d : List Char) :
    httpRequestParse r d = (1, r) := by
  unfold httpRequestParse
  rw [hr]
  simp

/-- C4.  HTTP framer monotonicity: when a fresh parse of `p` returns
Complete, a fresh parse of any extension `p ++ s` returns the very same
result (same return code 1 and an identical request record: same method,
path, version, host, headers, content_length, chunked, keep_alive and
total_length); and re-invoking the parser on the already-complete request
state short-circuits and again returns 1 with the record untouched. -/
theorem c4_framer_monotonicity (p s : List Char)
    (h : (httpRequestParse httpRequestInit p).1 = 1) :
    httpRequestParse httpRequestInit (p ++ s) = httpRequestParse httpRequestInit p
    ∧ httpRequestParse (httpRequestParse httpRequestInit p).2 (p ++ s) =
        (1, (httpRequestParse httpRequestInit p).2) := by
  have hni : httpRequestInit.is_complete = false := rfl
  have hcomp : (httpRequestParse httpRequestInit p).2.is_complete = true := by
    unfold httpRequestParse at h ⊢
    rw [hni] at h ⊢
    simp only [Bool.false_eq_true, if_false] at h ⊢
    cases hhe : findHeaderEnd p with
    | none =>
      rw [hhe] at h
      simp at h
    | some i =>
      rw [hhe] at h
      dsimp only at h
      exact afterHeaderEnd_one_complete h
  refine ⟨?_, parse_of_complete _ hcomp _⟩
  unfold httpRequestParse at h ⊢
  rw [hni] at h ⊢
  simp only [Bool.false_eq_true, if_false] at h ⊢
  cases hhe : findHeaderEnd p with
  | none =>
    rw [hhe] at h
    simp at h
  | some i =>
    rw [hhe] at h
    rw [findHeaderEnd_append hhe]
    dsimp only at h ⊢
    exact afterHeaderEnd_append hhe h

/-- Witness for c4_framer_monotonicity: the scenario request extended by
one byte parses to the identical complete result. -/
theorem c4_framer_monotonicity_witness :
    httpRequestParse httpRequestInit (("GET /x HTTP/1.1\r\nHost: h\r\n\r\n".toList) ++ ['Z']) =
      httpRequestParse httpRequestInit ("GET /x HTTP/1.1\r\nHost: h\r\n\r\n".toList) :=
  (c4_framer_monotonicity ("GET /x HTTP/1.1\r\nHost: h\r\n\r\n".toList) ['Z'] (by decide)).1

/-- C2, counterexample.  The scenario request is 28 bytes long; the parser
returns Complete with `total_length = 28`, not 38, and with an empty host,
not `"h"` (the final header line's CRLF is the start of the CRLFCRLF
terminator, so the header loop never sees the `Host` line). -/
theorem c2_get_framing_counterexample :
    ("GET /x HTTP/1.1\r\nHost: h\r\n\r\n".toList).length = 28
    ∧ (httpRequestParse httpRequestInit ("GET /x HTTP/1.1\r\nHost: h\r\n\r\n".toList)).2.total_length = 28
    ∧ ¬ (httpRequestParse httpRequestInit ("GET /x HTTP/1.1\r\nHost: h\r\n\r\n".toList)).2.total_length = 38
    ∧ (httpRequestParse httpRequestInit ("GET /x HTTP/1.1\r\nHost: h\r\n\r\n".toList)).2.host = []
    ∧ ¬ (httpRequestParse httpRequestInit ("GET /x HTTP/1.1\r\nHost: h\r\n\r\n".toList)).2.host = "h".toList := by
  decide

/-- C2, amended.  Parsing the 28-byte request `GET /x HTTP/1.1\r\nHost:
h\r\n\r\n` from a fresh state returns Complete (1) with method GET, path
`/x`, version 1.1, keep_alive true, `total_length = 28`, and an empty host
and header table (the last header line before the blank line is never
parsed because its CRLF belongs to the CRLFCRLF terminator). -/
theorem c2_get_framing_amended :
    httpRequestParse httpRequestInit ("GET /x HTTP/1.1\r\nHost: h\r\n\r\n".toList) =
      (1, { method := HttpMethod.GET, method_str := "GET".toList, path := "/x".toList,
            version := HttpVersion.V11, host := [], headers := [], content_length := -1,
            chunked := false, keep_alive := true, is_complete := true,
            headers_end_offset := 28, total_length := 28 }) := by
  decide

/-- C9, counterexample.  parse_header on `Content-Length: -5` succeeds and
stores the negative value -5 in content_length, refuting the claim that
the cached Content-Length is always a non-negative integer. -/
theorem c9_content_length_counterexample :
    (parseHeader httpRequestInit ("Content-Length: -5".toList)).map HttpRequest.content_length
      = some (-5)
    ∧ ¬ (0 : Int) ≤ (-5 : Int) := by
  decide

lemma atoll_nonneg {value : List Char}
    (h : (value.dropWhile isCSpace).head? ≠ some '-') : 0 ≤ atoll value := by
  unfold atoll
  cases hd : value.dropWhile isCSpace with
  | nil => exact le_refl 0
  | cons c rest =>
    rw [hd] at h
    have hc : ¬ c = '-' := by
      intro hcm
      exact h (by rw [hcm]; rfl)
    dsimp only
    rw [if_neg hc]
    by_cases hplus : c = '+'
    · rw [if_pos hplus]
      exact Int.natCast_nonneg _
    · rw [if_neg hplus]
      exact Int.natCast_nonneg _

lemma ncaseEq_contentLength_not_host {name : List Char}
    (h : ncaseEq name ("Content-Length".toList) 14 = true) :
    ncaseEq name ("Host".toList) 4 = false := by
  unfold ncaseEq at h ⊢
  have h14 : (name.take 14).map asciiLower = "content-length".toList := by
    have := of_decide_eq_true h
    rw [this]
    decide
  have h4 : (name.take 4).map asciiLower = "cont".toList := by
    have := congrArg (fun l => List.take 4 l) h14
    simp only [← List.map_take, List.take_take] at this
    simpa using this
  apply decide_eq_false
  intro hEq
  rw [h4] at hEq
  have : ("Host".toList.take 4).map asciiLower = "host".toList := by decide
  rw [this] at hEq
  exact absurd hEq (by decide)

/-- C9, amended.  When parse_header succeeds on a header line whose stored
name matches `Content-Length` by the code's 14-byte case-insensitive
comparison, the request's content_length becomes `atoll` of the stored
value -- a signed decimal conversion.  The result is non-negative whenever
the value does not begin with a minus sign, but a negative value such as
`-5` is stored as-is. -/
theorem c9_content_length_amended (req : HttpRequest) (line : List Char) (r' : HttpRequest)
    (hp : parseHeader req line = some r')
    (hname : ncaseEq (headerName line) ("Content-Length".toList) 14 = true) :
    r'.content_length = atoll (headerValue line)
    ∧ (((headerValue line).dropWhile isCSpace).head? ≠ some '-' → 0 ≤ r'.content_length) := by
  unfold parseHeader at hp
  split at hp
  · exact Option.noConfusion hp
  · split at hp
    · exact Option.noConfusion hp
    · split at hp
      · exact Option.noConfusion hp
      · dsimp only at hp
        split at hp
        · exact Option.noConfusion hp
        · simp only [ncaseEq_contentLength_not_host hname, hname, Bool.false_eq_true,
            if_false, if_true] at hp
          have hinj := Option.some.inj hp
          constructor
          · rw [← hinj]
          · intro hnm
            rw [← hinj]
            exact atoll_nonneg hnm

/-- Witness for c9_content_length_amended on a concrete positive header. -/
theorem c9_content_length_amended_witness :
    (parseHeader httpRequestInit ("Content-Length: 42".toList)).map HttpRequest.content_length
      = some 42 := by
  have h := c9_content_length_amended httpRequestInit ("Content-Length: 42".toList)
    { httpRequestInit with
      headers := [("Content-Length".toList, "42".toList)], content_length := 42 }
    (by decide) (by decide)
  decide

/-- C6.  Framing determination case split of http_request_parse: once the
headers terminator, the request line and the header loop have been
processed, the parse result is determined exactly as the claim states --
chunked requests complete immediately at the headers-end offset; an
explicit non-negative Content-Length completes exactly when the buffered
prefix reaches `headers_end_offset + content_length`, else Need; body-less
methods (GET/HEAD/DELETE) complete at the headers-end offset; anything
else is Malformed. -/
theorem c6_framing_cases (data : List Char) (i c : Nat) (m : HttpMethod)
    (mstr pth : List Char) (ver : HttpVersion) (req1 : HttpRequest)
    (hhe : findHeaderEnd data = some i)
    (hcr : findCRLF data = some c)
    (hrl : parseRequestLine (data.take c) = some (m, mstr, pth, ver))
    (hhl : headerLoop (requestLineApplied httpRequestInit i m mstr pth ver)
        ((data.take i).drop (c + 2)) = some req1) :
    ((applyKeepAliveDefault req1).chunked = true →
      httpRequestParse httpRequestInit data =
        (1, { applyKeepAliveDefault req1 with
              total_length := (applyKeepAliveDefault req1).headers_end_offset,
              is_complete := true }))
    ∧ ((applyKeepAliveDefault req1).chunked = false →
        0 ≤ (applyKeepAliveDefault req1).content_length →
        httpRequestParse httpRequestInit data =
          (if (applyKeepAliveDefault req1).headers_end_offset
              + (applyKeepAliveDefault req1).content_length.toNat ≤ data.length then
            (1, { applyKeepAliveDefault req1 with
                  total_length := (applyKeepAliveDefault req1).headers_end_offset
                    + (applyKeepAliveDefault req1).content_length.toNat,
                  is_complete := true })
          else
            (0, { applyKeepAliveDefault req1 with
                  total_length := (applyKeepAliveDefault req1).headers_end_offset
                    + (applyKeepAliveDefault req1).content_length.toNat })))
    ∧ ((applyKeepAliveDefault req1).chunked = false →
        (applyKeepAliveDefault req1).content_length < 0 →
        ((applyKeepAliveDefault req1).method = HttpMethod.GET
          ∨ (applyKeepAliveDefault req1).method = HttpMethod.HEAD
          ∨ (applyKeepAliveDefault req1).method = HttpMethod.DELETE) →
        httpRequestParse httpRequestInit data =
          (1, { applyKeepAliveDefault req1 with
                total_length := (applyKeepAliveDefault req1).headers_end_offset,
                is_complete := true }))
    ∧ ((applyKeepAliveDefault req1).chunked = false →
        (applyKeepAliveDefault req1).content_length < 0 →
        ¬ ((applyKeepAliveDefault req1).method = HttpMethod.GET
          ∨ (applyKeepAliveDefault req1).method = HttpMethod.HEAD
          ∨ (applyKeepAliveDefault req1).method = HttpMethod.DELETE) →
        httpRequestParse httpRequestInit data = (-1, applyKeepAliveDefault req1)) := by
  have hni : httpRequestInit.is_complete = false := rfl
  have hmain : httpRequestParse httpRequestInit data =
      determineFraming (applyKeepAliveDefault req1) data.length := by
    unfold httpRequestParse
    rw [hni]
    simp only [Bool.false_eq_true, if_false]
    rw [hhe]
    dsimp only
    unfold afterHeaderEnd
    rw [hcr]
    dsimp only
    rw [hrl]
    dsimp only
    rw [hhl]
  rw [hmain]
  unfold determineFraming
  refine ⟨?_, ?_, ?_, ?_⟩
  · intro hch
    rw [if_pos hch]
  · intro hch hcl
    rw [if_neg (by rw [hch]; exact Bool.false_ne_true), if_pos hcl]
  · intro hch hcl hm
    rw [if_neg (by rw [hch]; exact Bool.false_ne_true), if_neg (by omega), if_pos hm]
  · intro hch hcl hm
    rw [if_neg (by rw [hch]; exact Bool.false_ne_true), if_neg (by omega), if_neg hm]

/-- Witness for c6_framing_cases on the scenario request, which exercises
the body-less GET case. -/
theorem c6_framing_cases_witness :
    httpRequestParse httpRequestInit ("GET /x HTTP/1.1\r\nHost: h\r\n\r\n".toList) =
      (1, { applyKeepAliveDefault (requestLineApplied httpRequestInit 24 HttpMethod.GET
              ("GET".toList) ("/x".toList) HttpVersion.V11) with
            total_length := 28, is_complete := true }) := by
  have h := c6_framing_cases ("GET /x HTTP/1.1\r\nHost: h\r\n\r\n".toList) 24 15
    HttpMethod.GET ("GET".toList) ("/x".toList) HttpVersion.V11
    (requestLineApplied httpRequestInit 24 HttpMethod.GET ("GET".toList) ("/x".toList)
      HttpVersion.V11)
    (by decide) (by decide) (by decide) (by decide)
  have h3 := h.2.2.1 (by decide) (by decide) (Or.inl (by decide))
  rw [h3]
  decide

/-! ## Connection pool and state machine, from src/connection.c

The build uses the unified state enumeration of src/include/config.h;
connection.c's readable state (`CONN_READING` in its comments) is the
HTTP reading state `CONN_READING_REQUEST` and its writable state the
response-writing state `CONN_WRITING_RESPONSE`.  A slot's `peer` is the
pool index of its paired slot (`NULL` is `none`), and the free list is a
stack whose top is the list's last element (`free_count` is its length). -/

inductive ConnState where
  | CONNECTING | CONNECTED | READING_REQUEST | REQUEST_COMPLETE
  | WRITING_RESPONSE | CLOSING | CLOSED
  deriving DecidableEq, Repr

/-- connection_t from src/include/config.h (event-loop-visible fields;
`last_active` timestamps and the heap-allocated framer state do not enter
the claims about pool bookkeeping). -/
structure Conn where
  fd : Int
  peer : Option Nat
  state : ConnState
  read_buf : Buffer
  write_buf : Buffer
  is_client : Bool
  requests_handled : Nat
  keep_alive : Bool
  deriving DecidableEq, Repr

/-- connection_is_valid from src/connection.c. -/
def connectionIsValid (c : Conn) : Bool :=
  !(c.state = ConnState.CLOSED) && 0 ≤ c.fd

/-- connection_can_read from src/connection.c: valid, in a readable state,
with a peer whose write buffer is not full (the backpressure clause). -/
def connectionCanRead (c : Conn) (peer : Option Conn) : Bool :=
  connectionIsValid c
    && (c.state = ConnState.CONNECTED || c.state = ConnState.READING_REQUEST)
    && (match peer with
        | none => false
        | some p => !(bufferIsFull p.write_buf))

/-- connection_wants_read from src/connection.c. -/
def connectionWantsRead (c : Conn) (peer : Option Conn) : Bool :=
  connectionCanRead c peer

/-- connection_wants_write from src/connection.c. -/
def connectionWantsWrite (c : Conn) : Bool :=
  connectionIsValid c
    && (c.state = ConnState.CONNECTING || !(bufferIsEmpty c.write_buf))

/-- connection_can_write from src/connection.c. -/
def connectionCanWrite (c : Conn) : Bool :=
  connectionIsValid c
    && (c.state = ConnState.CONNECTED || c.state = ConnState.WRITING_RESPONSE)
    && !(bufferIsEmpty c.write_buf)

/-- Epoll event bits from sys/epoll.h. -/
def EPOLLIN : Nat := 1

/-- EPOLLOUT event bit. -/
def EPOLLOUT : Nat := 4

/-- EPOLLERR event bit. -/
def EPOLLERR : Nat := 8

/-- EPOLLHUP event bit. -/
def EPOLLHUP : Nat := 16

/-- EPOLLRDHUP event bit. -/
def EPOLLRDHUP : Nat := 8192

/-- EPOLLET event bit. -/
def EPOLLET : Nat := 2147483648

/-- The interest mask computed by update_epoll_events (src/proxy.c lines
708-728): readable interest when the slot wants to read, writable when it
wants to write, and the minimal-registration fallback `events = EPOLLIN`
when neither holds. -/
def updateEpollEventsMask (c : Conn) (peer : Option Conn) : Nat :=
  let ev := (if connectionWantsRead c peer then EPOLLIN else 0)
    ||| (if connectionWantsWrite c then EPOLLOUT else 0)
  if ev = 0 then EPOLLIN else ev

/-- epoll_mod (src/epoll.c) always ORs in EPOLLET, EPOLLRDHUP, EPOLLHUP
and EPOLLERR before registering. -/
def epollModMask (events : Nat) : Nat :=
  events ||| EPOLLET ||| EPOLLRDHUP ||| EPOLLHUP ||| EPOLLERR

/-- The mask actually registered for a slot after update_epoll_events. -/
def registeredMask (c : Conn) (peer : Option Conn) : Nat :=
  epollModMask (updateEpollEventsMask c peer)

/-- A write buffer filled to capacity (a drained-slow-peer situation). -/
def fullBuf : Buffer :=
  { data := List.replicate BUFFER_SIZE 'a', len := BUFFER_SIZE, pos := 0 }

/-- A CONNECTED client slot with empty buffers, paired with slot 1. -/
def idleSrcConn : Conn :=
  { fd := 5, peer := some 1, state := ConnState.CONNECTED, read_buf := bufferInitB,
    write_buf := bufferInitB, is_client := true, requests_handled := 0, keep_alive := true }

/-- A CONNECTED peer slot whose write buffer is full. -/
def fullPeerConn : Conn :=
  { fd := 6, peer := some 0, state := ConnState.CONNECTED, read_buf := bufferInitB,
    write_buf := fullBuf, is_client := false, requests_handled := 0, keep_alive := true }

/-- A CONNECTING upstream slot with empty buffers, paired with slot 1. -/
def connectingConn : Conn :=
  { fd := 5, peer := some 1, state := ConnState.CONNECTING, read_buf := bufferInitB,
    write_buf := bufferInitB, is_client := false, requests_handled := 0, keep_alive := true }

/-- C1, counterexample.  A CONNECTED slot whose peer's write buffer is
full but whose own write buffer is empty wants neither read nor write, so
update_epoll_events falls back to `events = EPOLLIN`: the registered mask
still contains readable interest, refuting the claim that the mask never
includes EPOLLIN while the peer's buffer is full. -/
theorem c1_backpressure_counterexample :
    bufferIsFull fullPeerConn.write_buf = true
    ∧ registeredMask idleSrcConn (some fullPeerConn) &&& EPOLLIN = EPOLLIN := by
  constructor
  · decide
  · decide

/-- C1, amended.  When the peer's write buffer is full the slot never
wants readable interest; and whenever the slot also wants writable
interest (it is CONNECTING or has buffered output) the registered mask
contains no EPOLLIN.  Only when the slot wants neither read nor write does
update_epoll_events fall back to registering EPOLLIN. -/
theorem c1_backpressure_amended (c p : Conn)
    (hfull : bufferIsFull p.write_buf = true)
    (hww : connectionWantsWrite c = true) :
    connectionWantsRead c (some p) = false
    ∧ registeredMask c (some p) &&& EPOLLIN = 0 := by
  have hwr : connectionWantsRead c (some p) = false := by
    simp [connectionWantsRead, connectionCanRead, hfull]
  refine ⟨hwr, ?_⟩
  unfold registeredMask updateEpollEventsMask
  rw [hwr, hww]
  decide

/-- Witness for c1_backpressure_amended: a CONNECTING upstream slot with a
full peer buffer registers a mask without EPOLLIN. -/
theorem c1_backpressure_amended_witness :
    connectionWantsRead connectingConn (some fullPeerConn) = false
    ∧ registeredMask connectingConn (some fullPeerConn) &&& EPOLLIN = 0 :=
  c1_backpressure_amended connectingConn fullPeerConn (by decide) (by decide)

/-! ## Slot lifecycle for the keep-alive accounting claim (C7)

connection_free and connection_init (src/connection.c) reset fd, peer,
state and the buffers, but neither touches `requests_handled`; the only
write to that counter in the whole program is the increment in
handle_write's keep-alive tail (src/proxy.c lines 477-494). -/

/-- Effect of connection_close on the slot's own fields (connection.c
lines 180-204 followed by connection_free): state CLOSED, fd -1, peer
cleared, buffers cleared -- `requests_handled` is left as it is. -/
def closedSlot (c : Conn) : Conn :=
  { c with
    state := ConnState.CLOSED, fd := -1, peer := none,
    read_buf := bufferClear c.read_buf, write_buf := bufferClear c.write_buf }

/-- connection_init (src/connection.c lines 143-154): sets fd, role and
state, clears peer and buffers -- and does not reset `requests_handled`. -/
def connectionInitSlot (c : Conn) (fd : Int) (is_cl : Bool) (st : ConnState) : Conn :=
  { c with
    fd := fd, is_client := is_cl, state := st, peer := none,
    read_buf := bufferClear c.read_buf, write_buf := bufferClear c.write_buf }

/-- The keep-alive tail of handle_write (src/proxy.c lines 477-494), taken
when an HTTP client's response write has drained with keep_alive set:
clear both buffers, reset the framer, state READING_REQUEST, increment
requests_handled, and close the slot when the incremented counter reaches
MAX_REQUESTS_PER_CONN. -/
def drainComplete (c : Conn) : Conn :=
  let c' := { c with
    read_buf := bufferClear c.read_buf, write_buf := bufferClear c.write_buf,
    state := ConnState.READING_REQUEST, requests_handled := c.requests_handled + 1 }
  if MAX_REQUESTS_PER_CONN ≤ c'.requests_handled then closedSlot c' else c'

/-- A fresh HTTP client slot about to finish writing its first response. -/
def freshClientConn : Conn :=
  { fd := 7, peer := none, state := ConnState.WRITING_RESPONSE, read_buf := bufferInitB,
    write_buf := bufferInitB, is_client := true, requests_handled := 0, keep_alive := true }

lemma bufferClear_init : bufferClear bufferInitB = bufferInitB := rfl

lemma drain_iter_below (n : Nat) (h1 : 1 ≤ n) (h2 : n < MAX_REQUESTS_PER_CONN) :
    drainComplete^[n] freshClientConn =
      { freshClientConn with state := ConnState.READING_REQUEST, requests_handled := n } := by
  induction n with
  | zero => omega
  | succ m ih =>
    rw [Function.iterate_succ_apply']
    by_cases hm : m = 0
    · subst hm
      simp only [Function.iterate_zero_apply]
      simp [drainComplete, freshClientConn, bufferClear_init, MAX_REQUESTS_PER_CONN]
    · rw [ih (by omega) (by omega)]
      unfold drainComplete
      dsimp only
      rw [if_neg (by omega : ¬ MAX_REQUESTS_PER_CONN ≤ m + 1)]
      simp [freshClientConn, bufferClear_init]

lemma drain_at_cap :
    drainComplete^[MAX_REQUESTS_PER_CONN] freshClientConn =
      closedSlot { freshClientConn with
        state := ConnState.READING_REQUEST, requests_handled := MAX_REQUESTS_PER_CONN } := by
  have hM : MAX_REQUESTS_PER_CONN = 999 + 1 := rfl
  rw [hM, Function.iterate_succ_apply', drain_iter_below 999 (by decide) (by decide)]
  unfold drainComplete
  dsimp only
  rw [if_pos (by decide : MAX_REQUESTS_PER_CONN ≤ 999 + 1)]
  simp [freshClientConn, bufferClear_init, closedSlot]

/-- C7, code bug.  A client slot that exhausts its request cap is closed
with `requests_handled = MAX_REQUESTS_PER_CONN`; neither connection_free
nor connection_init resets the counter, so when the freed slot is reused
for a new client the stale value remains, and the first completed
keep-alive response on the reused slot drives `requests_handled` to
MAX_REQUESTS_PER_CONN + 1 -- violating the claimed invariant
`requests_handled ≤ MAX_REQUESTS_PER_CONN` (and closing the fresh
connection after a single request). -/
theorem c7_keepalive_accounting_bug :
    (drainComplete^[MAX_REQUESTS_PER_CONN] freshClientConn).requests_handled
        = MAX_REQUESTS_PER_CONN
    ∧ (drainComplete^[MAX_REQUESTS_PER_CONN] freshClientConn).state = ConnState.CLOSED
    ∧ MAX_REQUESTS_PER_CONN <
      (drainComplete (connectionInitSlot
        (drainComplete^[MAX_REQUESTS_PER_CONN] freshClientConn)
        9 true ConnState.READING_REQUEST)).requests_handled := by
  rw [drain_at_cap]
  refine ⟨rfl, rfl, by decide⟩

/-! ## Pool-level close operations, from src/connection.c -/

/-- The statistics fields connection_free touches or the claims observe. -/
structure PoolStats where
  total_connections : Nat
  active_connections : Int
  errors : Nat
  deriving DecidableEq, Repr

/-- The pool-level state connection_close manipulates: the slot array, the
free-list stack (top at the list's end; free_count is its length) and the
statistics block. -/
structure Pool where
  conns : List Conn
  free_list : List Nat
  stats : PoolStats
  deriving DecidableEq, Repr

/-- Replace slot `k` of the pool. -/
def setConn (p : Pool) (k : Nat) (c : Conn) : Pool :=
  { p with conns := p.conns.set k c }

/-- connection_unpair (src/connection.c lines 166-178): if the slot has a
peer, clear the peer's back-reference and then the slot's own peer field. -/
def connectionUnpair (p : Pool) (k : Nat) : Pool :=
  match p.conns[k]? with
  | none => p
  | some c =>
    match c.peer with
    | none => p
    | some j =>
      let p1 :=
        match p.conns[j]? with
        | none => p
        | some cj => setConn p j { cj with peer := none }
      match p1.conns[k]? with
      | none => p1
      | some ck => setConn p1 k { ck with peer := none }

/-- connection_free (src/connection.c lines 96-136): close the slot's
fields and clear its buffers, then -- unless the free list would overflow
-- push the index and decrement the active-connection count.  (The field
mutations happen before the overflow check, exactly as in the source.) -/
def connectionFree (p : Pool) (k : Nat) : Pool :=
  match p.conns[k]? with
  | none => p
  | some c =>
    let p1 := setConn p k (closedSlot c)
    if MAX_CONNECTIONS ≤ p1.free_list.length then p1
    else
      { p1 with
        free_list := p1.free_list ++ [k],
        stats := { p1.stats with active_connections := p1.stats.active_connections - 1 } }

/-- connection_close (src/connection.c lines 180-204): a no-op on NULL or
on an already-CLOSED slot; otherwise deregister/close the fd (kernel-side,
outside the pool state), unpair, and free. -/
def connectionClose (p : Pool) (k? : Option Nat) : Pool :=
  match k? with
  | none => p
  | some k =>
    match p.conns[k]? with
    | none => p
    | some c =>
      if c.state = ConnState.CLOSED then p
      else connectionFree (connectionUnpair p k) k

/-- connection_close_pair (src/connection.c lines 206-223): snapshot the
peer before closing, close self, then close the snapshot if non-null. -/
def connectionClosePair (p : Pool) (k? : Option Nat) : Pool :=
  match k? with
  | none => p
  | some k =>
    match p.conns[k]? with
    | none => p
    | some c =>
      let p1 := connectionClose p (some k)
      match c.peer with
      | none => p1
      | some j => connectionClose p1 (some j)

/-- C10.  Closing is idempotent and close_pair closes each end exactly
once: connection_close on NULL or on an already-CLOSED slot leaves the
pool (every slot, the free list, the statistics) unchanged; and on a
mutually-paired pair of live slots, connection_close_pair closes both
slots, pushes each index onto the free list exactly once, leaves every
other slot untouched, and decrements the active count by exactly two. -/
theorem c10_close_idempotent_pair (p : Pool) (k j : Nat) (ck cj : Conn)
    (hk : p.conns[k]? = some ck) (hj : p.conns[j]? = some cj)
    (hne : k ≠ j)
    (hpk : ck.peer = some j) (_hpj : cj.peer = some k)
    (hsk : ¬ ck.state = ConnState.CLOSED) (hsj : ¬ cj.state = ConnState.CLOSED)
    (hcap : p.free_list.length + 2 ≤ MAX_CONNECTIONS) :
    connectionClose p none = p
    ∧ (∀ m cm, p.conns[m]? = some cm → cm.state = ConnState.CLOSED →
        connectionClose p (some m) = p)
    ∧ (connectionClosePair p (some k)).conns[k]? = some (closedSlot ck)
    ∧ (connectionClosePair p (some k)).conns[j]? = some (closedSlot cj)
    ∧ (∀ m, m ≠ k → m ≠ j → (connectionClosePair p (some k)).conns[m]? = p.conns[m]?)
    ∧ (connectionClosePair p (some k)).free_list = p.free_list ++ [k, j]
    ∧ (connectionClosePair p (some k)).stats.active_connections
        = p.stats.active_connections - 2
    ∧ (connectionClosePair p (some k)).stats.total_connections
        = p.stats.total_connections := by
  have hlk : k < p.conns.length := (List.getElem?_eq_some.mp hk).1
  have hlj : j < p.conns.length := (List.getElem?_eq_some.mp hj).1
  have hjk : j ≠ k := Ne.symm hne
  have hunpk : connectionUnpair p k =
      { p with conns := (p.conns.set j { cj with peer := none }).set k { ck with peer := none } } := by
    unfold connectionUnpair setConn
    rw [hk]
    dsimp only
    rw [hpk]
    dsimp only
    rw [hj]
    dsimp only
    rw [List.getElem?_set_ne hjk, hk]
  have hclose_k : connectionClose p (some k) =
      { p with
        conns := (p.conns.set j { cj with peer := none }).set k (closedSlot ck),
        free_list := p.free_list ++ [k],
        stats := { p.stats with active_connections := p.stats.active_connections - 1 } } := by
    unfold connectionClose
    dsimp only
    rw [hk]
    dsimp only
    rw [if_neg hsk, hunpk]
    unfold connectionFree
    dsimp only
    rw [List.getElem?_set_eq_of_lt _ (by rw [List.length_set]; exact hlk)]
    dsimp only
    rw [if_neg (by simp only [setConn]; omega)]
    unfold setConn
    dsimp only
    rw [List.set_set]
    rfl
  have hclose_j : connectionClose
      { p with
        conns := (p.conns.set j { cj with peer := none }).set k (closedSlot ck),
        free_list := p.free_list ++ [k],
        stats := { p.stats with active_connections := p.stats.active_connections - 1 } }
      (some j) =
      { p with
        conns := ((p.conns.set j { cj with peer := none }).set k (closedSlot ck)).set j
          (closedSlot cj),
        free_list := (p.free_list ++ [k]) ++ [j],
        stats := { p.stats with
          active_connections := p.stats.active_connections - 1 - 1 } } := by
    have hgetj : ((p.conns.set j { cj with peer := none }).set k (closedSlot ck))[j]?
        = some { cj with peer := none } := by
      rw [List.getElem?_set_ne hne,
        List.getElem?_set_eq_of_lt _ (by exact hlj)]
    unfold connectionClose
    dsimp only
    rw [hgetj]
    dsimp only
    rw [if_neg hsj]
    unfold connectionUnpair
    dsimp only
    rw [hgetj]
    dsimp only
    unfold connectionFree
    dsimp only
    rw [hgetj]
    dsimp only
    rw [if_neg (by
      simp only [setConn]
      simp only [List.length_append, List.length_cons, List.length_nil]
      omega)]
    unfold setConn
    dsimp only
    rfl
  have hpair : connectionClosePair p (some k) =
      { p with
        conns := ((p.conns.set j { cj with peer := none }).set k (closedSlot ck)).set j
          (closedSlot cj),
        free_list := (p.free_list ++ [k]) ++ [j],
        stats := { p.stats with
          active_connections := p.stats.active_connections - 1 - 1 } } := by
    unfold connectionClosePair
    dsimp only
    rw [hk]
    dsimp only
    rw [hpk]
    dsimp only
    rw [hclose_k]
    exact hclose_j
  have hlen2 : j < ((p.conns.set j { cj with peer := none }).set k (closedSlot ck)).length := by
    rw [List.length_set, List.length_set]
    exact hlj
  refine ⟨rfl, ?_, ?_, ?_, ?_, ?_, ?_, ?_⟩
  · intro m cm hm hcm
    unfold connectionClose
    dsimp only
    rw [hm]
    dsimp only
    rw [if_pos hcm]
  · rw [hpair]
    dsimp only
    rw [List.getElem?_set_ne hjk,
      List.getElem?_set_eq_of_lt _ (by rw [List.length_set]; exact hlk)]
  · rw [hpair]
    dsimp only
    rw [List.getElem?_set_eq_of_lt _ hlen2]
  · intro m hmk hmj
    rw [hpair]
    dsimp only
    rw [List.getElem?_set_ne (Ne.symm hmj), List.getElem?_set_ne (Ne.symm hmk),
      List.getElem?_set_ne (Ne.symm hmj)]
  · rw [hpair]
    dsimp only
    rw [List.append_assoc]
    rfl
  · rw [hpair]
    dsimp only
    omega
  · rw [hpair]

/-- Slot 0 of the two-slot demonstration pool: a client paired with 1. -/
def demoClient : Conn :=
  { fd := 3, peer := some 1, state := ConnState.CONNECTED, read_buf := bufferInitB,
    write_buf := bufferInitB, is_client := true, requests_handled := 0, keep_alive := true }

/-- Slot 1 of the two-slot demonstration pool: an upstream paired with 0. -/
def demoUpstream : Conn :=
  { fd := 4, peer := some 0, state := ConnState.CONNECTING, read_buf := bufferInitB,
    write_buf := bufferInitB, is_client := false, requests_handled := 0, keep_alive := true }

/-- A two-slot pool with slots 0 and 1 mutually paired and live. -/
def demoPool : Pool :=
  { conns := [demoClient, demoUpstream], free_list := [],
    stats := { total_connections := 2, active_connections := 2, errors := 0 } }

/-- Witness for c10_close_idempotent_pair: on the two-slot pool,
close_pair pushes exactly [0, 1] onto the free list. -/
theorem c10_close_idempotent_pair_witness :
    (connectionClosePair demoPool (some 0)).free_list = [0, 1] := by
  have h := c10_close_idempotent_pair demoPool 0 1 demoClient demoUpstream
    rfl rfl (by decide) rfl rfl (by decide) (by decide) (by decide)
  rw [h.2.2.2.2.2.1]
  rfl

/-! ## The HTTP-mode client read handler, from src/proxy.c

handle_read_http_client drains the socket in a loop: each iteration calls
buffer_read_fd (which fails with ENOBUFS before even issuing the read when
the buffer is full), parses the buffered prefix, and dispatches on the
parse result.  EOF closes the client; a read error (any errno other than
EAGAIN, which includes ENOBUFS) counts an error and closes the client;
EAGAIN breaks out of the loop, after which -- and only then -- the
`read_buf.len > MAX_REQUEST_SIZE` cap check may synthesize a 413. -/

inductive ReadOutcome where
  | dispatched | sent400 | closedEof | closedErr | sent413 | waitMore
  deriving DecidableEq, Repr

/-- handle_read_http_client (src/proxy.c lines 351-423) over an incoming
byte stream: each loop iteration delivers `min(space, remaining)` stream
bytes (what a read of `space` bytes can return); an exhausted stream ends
with EOF (when `eof`) or EAGAIN.  Structurally recursive on fuel; every
iteration consumes at least one stream byte, so any fuel above the stream
length behaves as the unbounded C loop. -/
def handleReadHttpClient : Nat → Buffer → HttpRequest → List Char → Bool →
    ReadOutcome × Buffer × HttpRequest
  | 0, buf, req, _, _ => (ReadOutcome.waitMore, buf, req)
  | fuel + 1, buf, req, stream, eof =>
    if BUFFER_SIZE ≤ buf.len then
      (ReadOutcome.closedErr, buf, req)
    else
      match stream with
      | [] =>
        if eof then (ReadOutcome.closedEof, buf, req)
        else if MAX_REQUEST_SIZE < buf.len then (ReadOutcome.sent413, buf, req)
        else (ReadOutcome.waitMore, buf, req)
      | _ :: _ =>
        let space := BUFFER_SIZE - buf.len
        let chunk := stream.take space
        let buf' := bufferReadApply buf chunk
        let rest := stream.drop space
        let pr := httpRequestParse req (buf'.data.take buf'.len)
        if pr.1 = 1 then
          (if httpRequestIsValid pr.2 then ReadOutcome.dispatched else ReadOutcome.sent400,
            buf', pr.2)
        else if pr.1 = -1 then (ReadOutcome.sent400, buf', pr.2)
        else handleReadHttpClient fuel buf' pr.2 rest eof

lemma startsCRLF2_cons_false {a : Char} (ha : ¬ a = '\r') (l : List Char) :
    startsCRLF2 (a :: l) = false := by
  match l with
  | [] => rfl
  | [b] => rfl
  | [b, c] => rfl
  | b :: c :: d :: t => simp [startsCRLF2, ha]

lemma findHeaderEnd_replicate_A (n : Nat) :
    findHeaderEnd (List.replicate n 'A') = none := by
  induction n with
  | zero => rfl
  | succ m ih =>
    rw [List.replicate_succ]
    unfold findHeaderEnd
    rw [startsCRLF2_cons_false (by decide)]
    simp [ih]

/-- C3, code bug.  The 413 request-size cap of handle_read_http_client is
dead code: the read buffer's length never exceeds BUFFER_SIZE (16384),
which is far below MAX_REQUEST_SIZE (10 MiB), so the handler can never
synthesize a 413 (first conjunct); and on a client that sends 16385 bytes
of a request whose headers never complete, the buffer fills, the next
read attempt fails with ENOBUFS, and the client is closed through the
read-error path instead of receiving the claimed 413 (second conjunct). -/
theorem c3_request_cap_dead :
    (∀ (fuel : Nat) (buf : Buffer) (req : HttpRequest) (stream : List Char) (eof : Bool),
      buf.len ≤ BUFFER_SIZE →
      (handleReadHttpClient fuel buf req stream eof).1 ≠ ReadOutcome.sent413)
    ∧ (∀ fuel : Nat, 2 ≤ fuel →
      (handleReadHttpClient fuel bufferInitB httpRequestInit
        (List.replicate 16385 'A') false).1 = ReadOutcome.closedErr) := by
  constructor
  · intro fuel
    induction fuel with
    | zero =>
      intro buf req stream eof hlen
      simp [handleReadHttpClient]
    | succ f ih =>
      intro buf req stream eof hlen
      unfold handleReadHttpClient
      by_cases hfull : BUFFER_SIZE ≤ buf.len
      · rw [if_pos hfull]
        simp
      · rw [if_neg hfull]
        cases stream with
        | nil =>
          dsimp only
          by_cases heof : eof = true
          · rw [if_pos heof]
            simp
          · rw [if_neg heof]
            have hsmall : BUFFER_SIZE ≤ MAX_REQUEST_SIZE := by decide
            rw [if_neg (by omega)]
            simp
        | cons c rest =>
          dsimp only
          by_cases h1 : (httpRequestParse req
              ((bufferReadApply buf ((c :: rest).take (BUFFER_SIZE - buf.len))).data.take
                (bufferReadApply buf ((c :: rest).take (BUFFER_SIZE - buf.len))).len)).1 = 1
          · rw [if_pos h1]
            split <;> simp
          · rw [if_neg h1]
            by_cases h2 : (httpRequestParse req
                ((bufferReadApply buf ((c :: rest).take (BUFFER_SIZE - buf.len))).data.take
                  (bufferReadApply buf ((c :: rest).take (BUFFER_SIZE - buf.len))).len)).1 = -1
            · rw [if_pos h2]
              simp
            · rw [if_neg h2]
              apply ih
              unfold bufferReadApply
              rw [if_neg hfull]
              dsimp only
              have : ((c :: rest).take (BUFFER_SIZE - buf.len)).length ≤ BUFFER_SIZE - buf.len := by
                rw [List.length_take]
                omega
              omega
  · intro fuel hfuel
    obtain ⟨g, rfl⟩ : ∃ g, fuel = g + 2 := ⟨fuel - 2, by omega⟩
    have hg : g + 2 = (g + 1) + 1 := rfl
    rw [hg]
    unfold handleReadHttpClient
    rw [if_neg (by decide : ¬ BUFFER_SIZE ≤ bufferInitB.len)]
    have hrepl : List.replicate 16385 'A' = 'A' :: List.replicate 16384 'A' := rfl
    rw [hrepl]
    dsimp only
    have hspace : BUFFER_SIZE - bufferInitB.len = 16384 := by decide
    rw [hspace]
    have hchunk : ('A' :: List.replicate 16384 'A').take 16384 = List.replicate 16384 'A' := by
      rw [← hrepl, List.take_replicate, Nat.min_eq_left (by omega)]
    have hrest : ('A' :: List.replicate 16384 'A').drop 16384 = ['A'] := by
      rw [← hrepl, List.drop_replicate]
      norm_num
    rw [hchunk, hrest]
    have hbuf : bufferReadApply bufferInitB (List.replicate 16384 'A') =
        { data := List.replicate 16384 'A', len := 16384, pos := 0 } := by
      unfold bufferReadApply bufferInitB
      rw [if_neg (by decide)]
      dsimp only
      rw [List.take_zero, List.nil_append, Nat.zero_add, List.drop_replicate,
        List.length_replicate, show BUFFER_SIZE = 16384 from rfl,
        Nat.sub_self, List.replicate_zero, List.append_nil]
    rw [hbuf]
    have hparse : httpRequestParse httpRequestInit
        (({ data := List.replicate 16384 'A', len := 16384, pos := 0 } : Buffer).data.take
          ({ data := List.replicate 16384 'A', len := 16384, pos := 0 } : Buffer).len) =
        (0, httpRequestInit) := by
      dsimp only
      rw [List.take_replicate]
      unfold httpRequestParse
      rw [findHeaderEnd_replicate_A]
      rfl
    rw [hparse]
    rw [if_neg (by decide), if_neg (by decide)]
    unfold handleReadHttpClient
    rw [if_pos (by decide : BUFFER_SIZE ≤
      ({ data := List.replicate 16384 'A', len := 16384, pos := 0 } : Buffer).len)]

/-- Witness for c3_request_cap_dead at the concrete oversize input. -/
theorem c3_request_cap_dead_witness :
    (handleReadHttpClient 16386 bufferInitB httpRequestInit
      (List.replicate 16385 'A') false).1 = ReadOutcome.closedErr :=
  c3_request_cap_dead.2 16386 (by decide)

end EpollProxy
